import Mathlib

/-!
Verification development for the usbmuxd python client (usbmux.py, tcprelay.py).

The python source is shallowly embedded: byte strings become `List Nat`
(each entry a byte value), machine integers become `Nat` with explicit
range checks where `struct.pack`/`struct.unpack` enforce them, python
exceptions become an explicit `Err` inductive carried in `Except`, and
python dicts become ordered association lists (`PDict`) with python's
insert-or-overwrite assignment semantics.
-/

set_option maxHeartbeats 1000000

set_option maxRecDepth 8000

/-- Errors raised by the embedded code.  Each constructor corresponds to one
raise site in the source: `socketBroken` is `MuxError("socket connection
broken")`, `invalidOutgoing` is the `ValueError` in `BinaryProtocol._pack`,
`invalidIncoming` is `MuxError("Invalid incoming request type ...")`,
`connectedCannotIssue` is `MuxError("Mux is connected, cannot issue control
packets")`, `versionMismatch` is `MuxVersionError`, `nonPlistType` is
`MuxError("Received non-plist type ...")`, `invalidPacketType` and
`unexpectedResult` are the raises in `_getreply`/`_processpacket`,
`tagMismatch` is `MuxError("Reply tag mismatch ...")`, `listenFailed` and
`connectFailed` are the nonzero-status raises in `listen`/`connect`,
`structError` models `struct.error` (wrong size or out-of-range value),
`keyError` models a python `KeyError`/`TypeError` on a dict access,
`indexError` models a list `IndexError`, `plistParse` models a
`plistlib.loads` failure, and `blocked` marks a read from an exhausted
packet stream (the python code would block forever there). -/
inductive Err where
  | socketBroken
  | invalidOutgoing (req : Nat)
  | invalidIncoming (resp : Nat)
  | connectedCannotIssue
  | versionMismatch (expected got : Nat)
  | nonPlistType (resp : Nat)
  | invalidPacketType
  | unexpectedResult
  | tagMismatch (expected got : Nat)
  | listenFailed (code : Nat)
  | connectFailed (code : Nat)
  | structError
  | keyError
  | indexError
  | plistParse
  | blocked
deriving DecidableEq

/-- Predicate used by `USBMux.__init__`'s `except MuxVersionError` clause:
only the `versionMismatch` constructor is an instance of `MuxVersionError`;
every other constructor models a different python exception class. -/
def Err.isMuxVersionError : Err → Bool
  | .versionMismatch _ _ => true
  | _ => false

/-- Little-endian encoding of a 16-bit value, as `struct.pack("H", n)`. -/
def u16le (n : Nat) : List Nat := [n % 256, n / 256 % 256]

/-- Little-endian encoding of a 32-bit value, as `struct.pack("I", n)`. -/
def u32le (n : Nat) : List Nat :=
  [n % 256, n / 256 % 256, n / 65536 % 256, n / 16777216 % 256]

/-- Little-endian decoding of 2 bytes, as `struct.unpack("H", ...)`. -/
def readU16 (l : List Nat) : Nat := l.getD 0 0 + 256 * l.getD 1 0

/-- Little-endian decoding of 4 bytes, as `struct.unpack("I", ...)`. -/
def readU32 (l : List Nat) : Nat :=
  l.getD 0 0 + 256 * l.getD 1 0 + 65536 * l.getD 2 0 + 16777216 * l.getD 3 0

/-- Range-checked 32-bit pack: `struct.pack("I", n)` raises `struct.error`
when the value does not fit. -/
def packU32 (n : Nat) : Except Err (List Nat) :=
  if n < 4294967296 then .ok (u32le n) else .error .structError

/-- Range-checked 16-bit pack: `struct.pack("H", n)` raises `struct.error`
when the value does not fit. -/
def packU16 (n : Nat) : Except Err (List Nat) :=
  if n < 65536 then .ok (u16le n) else .error .structError

theorem readU32_u32le (n : Nat) (h : n < 4294967296) : readU32 (u32le n) = n := by
  simp only [u32le, readU32, List.getD_cons_zero, List.getD_cons_succ]
  omega

theorem readU16_u16le (n : Nat) (h : n < 65536) : readU16 (u16le n) = n := by
  simp only [u16le, readU16, List.getD_cons_zero, List.getD_cons_succ]
  omega

theorem u32le_length (n : Nat) : (u32le n).length = 4 := rfl

theorem u16le_length (n : Nat) : (u16le n).length = 2 := rfl

/-- Values stored in a python dict payload: ints and (byte-)strings.
Python strings are represented by their code-point lists so that no
text-encoding machinery is needed. -/
inductive PValue where
  | int (n : Nat)
  | str (s : List Nat)
deriving DecidableEq

/-- Ordered association list standing for a python dict (python dicts
preserve insertion order and have unique keys). -/
def PDict := List (List Nat × PValue)
deriving DecidableEq

/-- Python dict assignment `d[k] = v`: overwrite in place when the key is
present (keeping its position), append otherwise. -/
def dictSet : PDict → List Nat → PValue → PDict
  | [], k, v => [(k, v)]
  | (k', v') :: rest, k, v =>
    if k' = k then (k, v) :: rest else (k', v') :: dictSet rest k v

/-- Python dict read `d[k]`, returning `none` where python raises `KeyError`. -/
def dictGet : PDict → List Nat → Option PValue
  | [], _ => none
  | (k', v') :: rest, k => if k' = k then some v' else dictGet rest k

/-- Code points of a string literal, used to spell dict keys and values. -/
def str2b (s : String) : List Nat := s.data.map Char.toNat

theorem dictGet_dictSet (d : PDict) (k : List Nat) (v : PValue) :
    dictGet (dictSet d k v) k = some v := by
  induction d with
  | nil => simp [dictSet, dictGet]
  | cons hd tl ih =>
    obtain ⟨k', v'⟩ := hd
    by_cases h : k' = k
    · simp [dictSet, dictGet, h]
    · simp [dictSet, dictGet, h, ih]

theorem dictGet_dictSet_ne (d : PDict) (k k2 : List Nat) (v : PValue)
    (h : k ≠ k2) : dictGet (dictSet d k v) k2 = dictGet d k2 := by
  induction d with
  | nil => simp [dictSet, dictGet, h]
  | cons hd tl ih =>
    obtain ⟨k', v'⟩ := hd
    by_cases h2 : k' = k
    · subst h2
      simp [dictSet, dictGet, h]
    · simp only [dictSet, if_neg h2, dictGet]
      by_cases h3 : k' = k2 <;> simp [h3, ih]

/-! ## Model of `plistlib` serialization

`plistlib` is python's standard-library property-list serializer; it is
external to this repository, so it is modelled from the spec: the spec
relies only on it being a serializer of key/value documents whose `loads`
inverts `dumps`.  The concrete format chosen here is a simple
self-delimiting byte encoding (base-255 digits terminated by byte 255);
the round-trip law `plistlibLoads (plistlibDumps d) = some d` is proved
below and is the only property the development uses. -/

/-- Little-endian base-255 digits of `n`, with a structural fuel argument
(always called with `fuel = n`) so that the function evaluates by kernel
reduction. -/
def dig255 : Nat → Nat → List Nat
  | _, 0 => []
  | 0, _ + 1 => []
  | fuel + 1, n + 1 => ((n + 1) % 255) :: dig255 fuel ((n + 1) / 255)

/-- Value of a little-endian base-255 digit list. -/
def undig255 : List Nat → Nat
  | [] => 0
  | d :: ds => d + 255 * undig255 ds

theorem dig255_lt : ∀ (fuel n : Nat), ∀ d ∈ dig255 fuel n, d < 255 := by
  intro fuel
  induction fuel with
  | zero =>
    intro n d hd
    cases n <;> simp [dig255] at hd
  | succ fuel ih =>
    intro n d hd
    cases n with
    | zero => simp [dig255] at hd
    | succ m =>
      simp only [dig255, List.mem_cons] at hd
      rcases hd with h | h
      · subst h
        exact Nat.mod_lt _ (by norm_num)
      · exact ih _ d h

theorem undig255_dig255 : ∀ (fuel n : Nat), n ≤ fuel → undig255 (dig255 fuel n) = n := by
  intro fuel
  induction fuel with
  | zero =>
    intro n h
    interval_cases n
    rfl
  | succ fuel ih =>
    intro n h
    cases n with
    | zero => rfl
    | succ m =>
      have hdiv : (m + 1) / 255 ≤ fuel := by
        have h2 : (m + 1) / 255 < m + 1 := Nat.div_lt_self (Nat.succ_pos m) (by norm_num)
        omega
      simp only [dig255, undig255, ih _ hdiv]
      omega

/-- Self-delimiting encoding of a natural number: its base-255 digits
(each < 255) followed by the terminator byte 255. -/
def encNat (n : Nat) : List Nat := dig255 n n ++ [255]

/-- Length-prefixed encoding of a list of naturals. -/
def encNatList (l : List Nat) : List Nat :=
  encNat l.length ++ l.flatMap encNat

/-- Encoding of one dict value (tag byte, then contents). -/
def encPValue : PValue → List Nat
  | .int n => 0 :: encNat n
  | .str s => 1 :: encNatList s

/-- Modelled from the spec: `plistlib.dumps` serializes a dict to bytes. -/
def plistlibDumps (d : PDict) : List Nat :=
  encNat d.length ++ d.flatMap (fun kv => encNatList kv.1 ++ encPValue kv.2)

/-- Split the stream at the first terminator byte 255. -/
def splitTerm : List Nat → Option (List Nat × List Nat)
  | [] => none
  | b :: rest =>
    if b = 255 then some ([], rest)
    else (splitTerm rest).map (fun p => (b :: p.1, p.2))

/-- Parse one encoded natural number. -/
def parseNat (l : List Nat) : Option (Nat × List Nat) :=
  (splitTerm l).map (fun p => (undig255 p.1, p.2))

/-- Parse `k` consecutive encoded naturals. -/
def parseNats : Nat → List Nat → Option (List Nat × List Nat)
  | 0, l => some ([], l)
  | k + 1, l => do
    let (n, r) ← parseNat l
    let (ns, r2) ← parseNats k r
    pure (n :: ns, r2)

/-- Parse one length-prefixed list of naturals. -/
def parseNatList (l : List Nat) : Option (List Nat × List Nat) := do
  let (k, r) ← parseNat l
  parseNats k r

/-- Parse one encoded dict value. -/
def parsePValue : List Nat → Option (PValue × List Nat)
  | 0 :: rest => (parseNat rest).map (fun p => (.int p.1, p.2))
  | 1 :: rest => (parseNatList rest).map (fun p => (.str p.1, p.2))
  | _ => none

/-- Parse `k` consecutive key/value entries. -/
def parseEntries : Nat → List Nat → Option (PDict × List Nat)
  | 0, l => some ([], l)
  | k + 1, l => do
    let (key, r) ← parseNatList l
    let (v, r2) ← parsePValue r
    let (es, r3) ← parseEntries k r2
    pure ((key, v) :: es, r3)

/-- Modelled from the spec: `plistlib.loads` parses serialized bytes back
into the dict, failing on malformed input. -/
def plistlibLoads (l : List Nat) : Option PDict := do
  let (k, r) ← parseNat l
  let (es, r2) ← parseEntries k r
  if r2 = [] then pure es else none

theorem splitTerm_append (ds r : List Nat) (h : ∀ b ∈ ds, b ≠ 255) :
    splitTerm (ds ++ 255 :: r) = some (ds, r) := by
  induction ds with
  | nil => simp [splitTerm]
  | cons b tl ih =>
    have hb : b ≠ 255 := h b (List.mem_cons_self _ _)
    simp only [List.cons_append, splitTerm, if_neg hb]
    rw [List.append_eq, ih (fun x hx => h x (List.mem_cons_of_mem _ hx))]
    rfl

theorem parseNat_encNat (n : Nat) (r : List Nat) :
    parseNat (encNat n ++ r) = some (n, r) := by
  have hd : ∀ b ∈ dig255 n n, b ≠ 255 := by
    intro b hb
    exact Nat.ne_of_lt (dig255_lt n n b hb)
  simp only [parseNat, encNat, List.append_assoc, List.cons_append, List.nil_append]
  rw [splitTerm_append _ _ hd]
  simp [undig255_dig255 n n (Nat.le_refl n)]

theorem parseNats_enc (l : List Nat) (r : List Nat) :
    parseNats l.length (l.flatMap encNat ++ r) = some (l, r) := by
  induction l generalizing r with
  | nil => simp [parseNats, List.flatMap]
  | cons n tl ih =>
    simp only [List.length_cons, List.flatMap_cons, List.append_assoc, parseNats]
    rw [parseNat_encNat]
    simp only [Option.bind_eq_bind, Option.some_bind]
    rw [ih]
    rfl

theorem parseNatList_enc (l : List Nat) (r : List Nat) :
    parseNatList (encNatList l ++ r) = some (l, r) := by
  simp only [parseNatList, encNatList, List.append_assoc]
  rw [parseNat_encNat]
  simp only [Option.bind_eq_bind, Option.some_bind]
  exact parseNats_enc l r

theorem parsePValue_enc (v : PValue) (r : List Nat) :
    parsePValue (encPValue v ++ r) = some (v, r) := by
  cases v with
  | int n =>
    simp only [encPValue, List.cons_append, parsePValue]
    rw [parseNat_encNat]
    rfl
  | str s =>
    simp only [encPValue, List.cons_append, parsePValue]
    rw [parseNatList_enc]
    rfl

theorem parseEntries_enc (d : PDict) (r : List Nat) :
    parseEntries d.length
      (d.flatMap (fun kv => encNatList kv.1 ++ encPValue kv.2) ++ r) = some (d, r) := by
  induction d generalizing r with
  | nil => simp [parseEntries, List.flatMap]
  | cons kv tl ih =>
    obtain ⟨k, v⟩ := kv
    simp only [List.length_cons, List.flatMap_cons, List.append_assoc, parseEntries]
    rw [parseNatList_enc]
    simp only [Option.bind_eq_bind, Option.some_bind]
    rw [parsePValue_enc]
    simp only [Option.some_bind]
    rw [ih]
    rfl

/-- Round trip of the modelled plist serializer: the only property of
`plistlib` that the protocol code relies on. -/
theorem plistlibLoads_dumps (d : PDict) : plistlibLoads (plistlibDumps d) = some d := by
  simp only [plistlibLoads, plistlibDumps]
  rw [show encNat d.length ++ d.flatMap (fun kv => encNatList kv.1 ++ encPValue kv.2)
      = encNat d.length ++ (d.flatMap (fun kv => encNatList kv.1 ++ encPValue kv.2) ++ []) by
    simp]
  rw [parseNat_encNat]
  simp only [Option.bind_eq_bind, Option.some_bind]
  rw [parseEntries_enc]
  rfl

/-! ## Dict keys and string constants used by the protocol code -/

/-- Key "DeviceID". -/
def kDeviceID : List Nat := str2b "DeviceID"

/-- Key "PortNumber". -/
def kPortNumber : List Nat := str2b "PortNumber"

/-- Key "ClientVersionString". -/
def kClientVersionString : List Nat := str2b "ClientVersionString"

/-- Key "MessageType". -/
def kMessageType : List Nat := str2b "MessageType"

/-- Key "ProgName". -/
def kProgName : List Nat := str2b "ProgName"

/-- Key "Number". -/
def kNumber : List Nat := str2b "Number"

/-- String "Connect" (PlistProtocol.TYPE_CONNECT). -/
def sConnect : List Nat := str2b "Connect"

/-- String "Listen" (PlistProtocol.TYPE_LISTEN). -/
def sListen : List Nat := str2b "Listen"

/-- String literal assigned to ClientVersionString by PlistProtocol.sendpacket. -/
def vClientVersion : List Nat := str2b "usbmux.py by marcan"

/-- String literal assigned to ProgName by PlistProtocol.sendpacket. -/
def vProgName : List Nat := str2b "tcprelay"

/-! ## Port byte swap (MuxConnection.connect) -/

/-- Byte swap applied to the port before a Connect request:
`port_swapped = ((port << 8) & 0xFF00) | (port >> 8)`. -/
def swap16 (port : Nat) : Nat := ((port <<< 8) &&& 0xFF00) ||| (port >>> 8)

/-! ## SafeStreamSocket

The blocking byte stream is modelled two ways.  For the codec layer a
connection's incoming data is a flat byte list (the bytes the peer sent
before closing) and `recvExact` returns the first `n` of them or fails as
`SafeStreamSocket.recv` does on a premature close.  The chunked model that
exposes the accumulation loop of `SafeStreamSocket.recv` itself follows
further below. -/

/-- Flat-stream view of `SafeStreamSocket.recv`: exactly `n` bytes or
`MuxError("socket connection broken")`. -/
def recvExact (stream : List Nat) (n : Nat) : Except Err (List Nat × List Nat) :=
  if n ≤ stream.length then .ok (stream.take n, stream.drop n) else .error .socketBroken

/-! ## Wire framing shared by both protocol classes -/

/-- Construction of `struct.pack("IIII", length, version, req, tag) + payload`
with `length = 16 + len(payload)`, as in `BinaryProtocol.sendpacket`. -/
def framePacket (version req tag : Nat) (payload_bytes : List Nat) : Except Err (List Nat) := do
  let lb ← packU32 (16 + payload_bytes.length)
  let vb ← packU32 version
  let rb ← packU32 req
  let tb ← packU32 tag
  .ok (lb ++ vb ++ rb ++ tb ++ payload_bytes)

/-- Frame reading shared by `BinaryProtocol.getpacket` and (via `super()`)
`PlistProtocol.getpacket`: read a 4-byte length, read `length - 4` more
bytes, split off version/kind/tag, and check the version against the
codec's expected version.  Returns (kind, tag, payload bytes, rest of
stream). -/
def getpacketRaw (version : Nat) (connected : Bool) (stream : List Nat) :
    Except Err (Nat × Nat × List Nat × List Nat) :=
  if connected then .error .connectedCannotIssue
  else do
    let (dlenB, s1) ← recvExact stream 4
    let dlen := readU32 dlenB
    let (body, s2) ← recvExact s1 (dlen - 4)
    if body.length < 12 then .error .structError
    else
      let ver := readU32 (body.take 4)
      let resp := readU32 ((body.drop 4).take 4)
      let tag := readU32 ((body.drop 8).take 4)
      if ver ≠ version then .error (.versionMismatch version ver)
      else .ok (resp, tag, body.drop 12, s2)

/-! ## BinaryProtocol (version 0) -/

namespace BinaryProtocol

def TYPE_RESULT : Nat := 1

def TYPE_CONNECT : Nat := 2

def TYPE_LISTEN : Nat := 3

def TYPE_DEVICE_ADD : Nat := 4

def TYPE_DEVICE_REMOVE : Nat := 5

def VERSION : Nat := 0

/-- Decoded payload dicts produced by `BinaryProtocol._unpack`, with the
dict fields carried as typed constructor arguments (`result` is
`{'Number': n}`, `deviceAdd` is `{'DeviceID': ..., 'Properties': {...}}`,
`deviceRemove` is `{'DeviceID': n}`). -/
inductive UnpackRes where
  | result (number : Nat)
  | deviceAdd (devid pid : Nat) (serial : List Nat) (location : Nat)
  | deviceRemove (devid : Nat)
deriving DecidableEq

/-- Embedding of `BinaryProtocol._pack`: `Connect` packs
`struct.pack("IH", DeviceID, PortNumber) + b"\x00\x00"`, `Listen` packs
nothing, any other request raises `ValueError`.  A missing or non-int
dict entry models the corresponding `KeyError`/`TypeError`. -/
def _pack (req : Nat) (payload : PDict) : Except Err (List Nat) :=
  if req = TYPE_CONNECT then
    match dictGet payload kDeviceID, dictGet payload kPortNumber with
    | some (.int devid), some (.int port) => do
      let d ← packU32 devid
      let p ← packU16 port
      .ok (d ++ p ++ [0, 0])
    | _, _ => .error .keyError
  else if req = TYPE_LISTEN then .ok []
  else .error (.invalidOutgoing req)

/-- Embedding of `BinaryProtocol._unpack`: `Result` is a 32-bit status,
`DeviceAttach` is `struct.unpack("IH256sHI", payload)` with the serial
taken up to its first NUL byte, `DeviceRemove` is a 32-bit device id, and
any other kind raises `MuxError`.  A payload whose length differs from
the struct size models the `struct.error` python would raise. -/
def _unpack (resp : Nat) (payload : List Nat) : Except Err UnpackRes :=
  if resp = TYPE_RESULT then
    if payload.length = 4 then .ok (.result (readU32 payload)) else .error .structError
  else if resp = TYPE_DEVICE_ADD then
    if payload.length = 268 then
      .ok (.deviceAdd (readU32 (payload.take 4))
        (readU16 ((payload.drop 4).take 2))
        (((payload.drop 6).take 256).takeWhile (fun b => b ≠ 0))
        (readU32 ((payload.drop 264).take 4)))
    else .error .structError
  else if resp = TYPE_DEVICE_REMOVE then
    if payload.length = 4 then .ok (.deviceRemove (readU32 payload)) else .error .structError
  else .error (.invalidIncoming resp)

/-- Embedding of `BinaryProtocol.sendpacket`: pack the payload, refuse to
send when the mux is connected (note the source packs first), then frame
with version 0. -/
def sendpacket (connected : Bool) (req tag : Nat) (payload : PDict) :
    Except Err (List Nat) := do
  let payload_bytes ← _pack req payload
  if connected then .error .connectedCannotIssue
  else framePacket VERSION req tag payload_bytes

/-- Embedding of `BinaryProtocol.getpacket`: read one frame (version 0)
and decode its payload with `_unpack`. -/
def getpacket (connected : Bool) (stream : List Nat) :
    Except Err (Nat × Nat × UnpackRes × List Nat) := do
  let (resp, tag, pb, rest) ← getpacketRaw VERSION connected stream
  let u ← _unpack resp pb
  .ok (resp, tag, u, rest)

end BinaryProtocol

/-! ## PlistProtocol (version 1) -/

namespace PlistProtocol

def TYPE_PLIST : Nat := 8

def VERSION : Nat := 1

/-- Request argument of `PlistProtocol.sendpacket`, which accepts either an
int request type or a MessageType string. -/
inductive ReqArg where
  | int (n : Nat)
  | str (s : List Nat)

/-- Embedding of `req = [self.TYPE_CONNECT, self.TYPE_LISTEN][req - 2]`:
python list indexing on a 2-element list, including the negative-index
cases (`req = 1` yields index -1, hence "Listen"; `req = 0` yields index
-2, hence "Connect"); any other int raises `IndexError`. -/
def reqToStr : ReqArg → Except Err (List Nat)
  | .str s => .ok s
  | .int n =>
    if n = 2 ∨ n = 0 then .ok sConnect
    else if n = 3 ∨ n = 1 then .ok sListen
    else .error .indexError

/-- Embedding of `PlistProtocol.sendpacket`: mutate the payload dict in
place (ClientVersionString, then MessageType, then ProgName), serialize it
with plistlib, and send it through the inherited frame builder with kind
`TYPE_PLIST` and version 1.  The second component of the result is the
payload dict's state after the call (the source mutates the caller's
dict, so this state survives the call). -/
def sendpacket (connected : Bool) (req : ReqArg) (tag : Nat) (payload : PDict) :
    Except Err (List Nat) × PDict :=
  let p1 := dictSet payload kClientVersionString (.str vClientVersion)
  match reqToStr req with
  | .error e => (.error e, p1)
  | .ok reqs =>
    let p2 := dictSet p1 kMessageType (.str reqs)
    let p3 := dictSet p2 kProgName (.str vProgName)
    let plist_data := plistlibDumps p3
    (if connected then .error .connectedCannotIssue
     else framePacket VERSION TYPE_PLIST tag plist_data, p3)

/-- Embedding of `PlistProtocol.getpacket`: read one frame (version 1),
require the plist kind marker, parse the payload with plistlib, and
return `payload['MessageType']`, the tag and the payload dict. -/
def getpacket (connected : Bool) (stream : List Nat) :
    Except Err (PValue × Nat × PDict × List Nat) := do
  let (resp, tag, pb, rest) ← getpacketRaw VERSION connected stream
  if resp ≠ TYPE_PLIST then .error (.nonPlistType resp)
  else
    match plistlibLoads pb with
    | none => .error .plistParse
    | some d =>
      match dictGet d kMessageType with
      | none => .error .keyError
      | some mt => .ok (mt, tag, d, rest)

end PlistProtocol

/-! ## SafeStreamSocket.recv, chunked model

Model of the OS socket underneath `SafeStreamSocket`: the kernel's pending
data is a list of chunks; `osRecv req` delivers the front chunk truncated
to the `req` bytes asked for, keeping any leftover pending.  An empty
front chunk (or an exhausted plan) is the zero-length read of a closed
connection. -/

/-- One `self.sock.recv(req)` call against the chunk plan. -/
def osRecv (req : Nat) : List (List Nat) → List Nat × List (List Nat)
  | [] => ([], [])
  | c :: rest => (c.take req, if c.length ≤ req then rest else c.drop req :: rest)

/-- Embedding of the accumulation loop of `SafeStreamSocket.recv`:
`msg = b''; while len(msg) < size: chunk = self.sock.recv(size - len(msg));
if chunk == b'': raise MuxError("socket connection broken"); msg += chunk`. -/
def recvLoop (size : Nat) (msg : List Nat) (s : List (List Nat)) :
    Except Err (List Nat × List (List Nat)) :=
  if h : msg.length < size then
    match hr : osRecv (size - msg.length) s with
    | (chunk, s2) =>
      if hc : chunk = [] then .error .socketBroken
      else recvLoop size (msg ++ chunk) s2
  else .ok (msg, s)
termination_by size - msg.length
decreasing_by
  have h1 : 0 < chunk.length := List.length_pos.mpr hc
  simp only [List.length_append]
  omega

/-- Embedding of `SafeStreamSocket.recv(size)` over the chunk plan. -/
def SafeStreamSocket.recv (size : Nat) (s : List (List Nat)) :
    Except Err (List Nat × List (List Nat)) :=
  recvLoop size [] s

/-! ## MuxConnection -/

/-- Embedding of the `MuxDevice` record. -/
structure MuxDevice where
  devid : Nat
  usbprod : Nat
  serial : List Nat
  location : Nat
deriving DecidableEq

/-- Decoded control packets as seen by `MuxConnection` — the
`(resp, tag, data)` triples returned by `proto.getpacket()`, with the
dict fields the connection layer reads (`data['Number']`,
`data['DeviceID']`, `data['Properties'][...]`) carried as typed
constructor arguments.  `other` stands for any kind matching none of the
protocol's TYPE_ constants (reachable through the plist codec, whose
kinds are arbitrary MessageType strings). -/
inductive Packet where
  | result (tag number : Nat)
  | deviceAdd (tag devid pid : Nat) (serial : List Nat) (location : Nat)
  | deviceRemove (tag devid : Nat)
  | other (tag : Nat)
deriving DecidableEq

/-- Device ids currently in a registry. -/
def devIds (l : List MuxDevice) : List Nat := l.map (fun d => d.devid)

namespace MuxConnection

/-- Embedding of the detach loop in `MuxConnection._processpacket`:
`for dev in self.devices: if dev.devid == id: self.devices.remove(dev)`,
with python's for-loop-over-a-mutating-list semantics made explicit: the
loop keeps an index `k`; removing the element at `k` shifts the tail left
while the index still advances, so the element after a removed one is
skipped. -/
def removeLoop (l : List MuxDevice) (devid : Nat) (k : Nat) : List MuxDevice :=
  if h : k < l.length then
    if (l.get ⟨k, h⟩).devid = devid then removeLoop (l.eraseIdx k) devid (k + 1)
    else removeLoop l devid (k + 1)
  else l
termination_by l.length - k
decreasing_by
  · have h1 : (l.eraseIdx k).length = l.length - 1 := List.length_eraseIdx_of_lt h
    omega
  · omega

/-- Embedding of `MuxConnection._processpacket` acting on one decoded
packet: a device-attach appends to the registry, a device-detach runs the
remove loop, a `Result` raises `MuxError("Unexpected result")`, anything
else raises `MuxError("Invalid packet type received")`. -/
def _processpacket (devices : List MuxDevice) : Packet → Except Err (List MuxDevice)
  | .deviceAdd _ devid pid serial loc => .ok (devices ++ [⟨devid, pid, serial, loc⟩])
  | .deviceRemove _ devid => .ok (removeLoop devices devid 0)
  | .result _ _ => .error .unexpectedResult
  | .other _ => .error .invalidPacketType

/-- Repeated `process()` calls: fold `_processpacket` over the incoming
packets, stopping at the first raised error. -/
def runEvents : List MuxDevice → List Packet → Except Err (List MuxDevice)
  | ds, [] => .ok ds
  | ds, p :: ps =>
    match _processpacket ds p with
    | .ok ds2 => runEvents ds2 ps
    | .error e => .error e

/-- Daemon well-formedness of an event stream: every attach event carries
a device id not currently in the registry (the daemon reuses an id only
after removal).  Detaches and the kinds on which processing aborts impose
no condition. -/
def freshAttachesB : List MuxDevice → List Packet → Bool
  | _, [] => true
  | ds, (.deviceAdd _ devid pid serial loc) :: ps =>
    !(decide (devid ∈ devIds ds)) && freshAttachesB (ds ++ [⟨devid, pid, serial, loc⟩]) ps
  | ds, (.deviceRemove _ devid) :: ps => freshAttachesB (removeLoop ds devid 0) ps
  | _, _ :: _ => true

/-- Embedding of `MuxConnection._getreply`: take the next packet; a
`Result` returns its tag and status, anything else raises
`MuxError("Invalid packet type received")`.  An exhausted stream would
block the python code forever, marked `blocked` here. -/
def _getreply : List Packet → Except Err (Nat × Nat × List Packet)
  | [] => .error .blocked
  | p :: rest =>
    match p with
    | .result tag number => .ok (tag, number, rest)
    | _ => .error .invalidPacketType

/-- Value of `self.pkttag` set by `MuxConnection.__init__`. -/
def initPkttag : Nat := 1

/-- Trace of one `MuxConnection._exchange`: the tag the request was sent
with (the send happens before the reply is validated) and the outcome —
on success the reply's `Number` field, the new `pkttag` and the rest of
the incoming stream. -/
structure ExchangeTrace where
  sentTag : Nat
  outcome : Except Err (Nat × Nat × List Packet)

/-- Embedding of `MuxConnection._exchange`: `mytag = self.pkttag;
self.pkttag += 1; sendpacket(req, mytag, payload); recvtag, data =
self._getreply(); if recvtag != mytag: raise MuxError(...); return
data['Number']`. -/
def _exchange (pkttag : Nat) (stream : List Packet) : ExchangeTrace :=
  { sentTag := pkttag
    outcome :=
      match _getreply stream with
      | .error e => .error e
      | .ok (recvtag, number, rest) =>
        if recvtag ≠ pkttag then .error (.tagMismatch pkttag recvtag)
        else .ok (number, pkttag + 1, rest) }

/-- Successive `_exchange` calls on one connection: perform `n` exchanges,
collecting the tags sent (including the tag of a failing exchange, whose
request was already sent) and the first error if one occurs. -/
def runExchanges : Nat → Nat → List Packet → List Nat × Option Err
  | 0, _, _ => ([], none)
  | n + 1, t, stream =>
    let tr := _exchange t stream
    match tr.outcome with
    | .error e => ([tr.sentTag], some e)
    | .ok (_, t2, rest) =>
      let r := runExchanges n t2 rest
      (tr.sentTag :: r.1, r.2)

/-- Daemon that answers every request correctly: the reply to the request
tagged `j` is a `Result` with tag `j` and status `nums j`. -/
def matchingReplies (t n : Nat) (nums : Nat → Nat) : List Packet :=
  (List.range' t n).map (fun j => Packet.result j (nums j))

/-- Result of a successful `MuxConnection.connect`: the updated tag
counter, the Streaming flag (`self.proto.connected = True`) and the fact
that `self.socket.sock` was handed back to the caller. -/
structure ConnectResult where
  pkttag : Nat
  connected : Bool
  socketReturned : Bool
deriving DecidableEq

/-- Embedding of `MuxConnection.connect`: swap the port bytes, exchange a
Connect request carrying `{'DeviceID': devid, 'PortNumber': port_swapped}`,
fail with `MuxError("Connect failed: error ...")` on a nonzero status,
otherwise set `self.proto.connected = True` and return the raw socket.
The first component is the payload dict sent on the wire; a connection
already in Streaming state fails from `sendpacket`'s connected check. -/
def connect (pkttag : Nat) (connected : Bool) (devid port : Nat)
    (stream : List Packet) : PDict × Except Err ConnectResult :=
  let port_swapped := swap16 port
  let payload := dictSet (dictSet [] kDeviceID (.int devid)) kPortNumber (.int port_swapped)
  if connected then (payload, .error .connectedCannotIssue)
  else
    match (_exchange pkttag stream).outcome with
    | .error e => (payload, .error e)
    | .ok (ret, t2, _) =>
      if ret ≠ 0 then (payload, .error (.connectFailed ret))
      else (payload, .ok { pkttag := t2, connected := true, socketReturned := true })

end MuxConnection

/-! ## USBMux -/

/-- Codec class negotiated by `USBMux.__init__`. -/
inductive ProtoClass where
  | binary
  | plist
deriving DecidableEq

/-- Fields of a constructed `USBMux` relevant to negotiation. -/
structure USBMuxInit where
  version : Nat
  protoclass : ProtoClass
deriving DecidableEq

/-- Embedding of `USBMux.__init__`, parameterized by the outcome of
`MuxConnection(socketpath, BinaryProtocol).listen()` and of the retry
`MuxConnection(socketpath, PlistProtocol).listen()`: try the binary
listener; on `MuxVersionError` (and only then) discard it and retry with
the plist codec; a failure of the retry propagates as the retry's own
error. -/
def USBMux.init (binaryListen plistListen : Except Err Unit) : Except Err USBMuxInit :=
  match binaryListen with
  | .ok _ => .ok { version := 0, protoclass := .binary }
  | .error e =>
    if e.isMuxVersionError then
      match plistListen with
      | .ok _ => .ok { version := 1, protoclass := .plist }
      | .error e2 => .error e2
    else .error e

/-! ## TCPRelay -/

/-- Observable outcome of one `TCPRelay.handle_connection` call for the
accepted local connection it serves. -/
structure HandleOutcome where
  clientClosed : Bool
  loggedFailure : Bool
  raised : Bool
  forwardingStarted : Bool
deriving DecidableEq

namespace TCPRelay

/-- Embedding of `TCPRelay.handle_connection`, parameterized by the
outcome of the guarded setup block (`USBMux()`, device lookup,
`mux.connect(device, self.remote_port)`): any setup error is caught,
printed and answered by `client_sock.close(); return`; on success the two
forwarding threads are started.  The function is total: the `except`
clause means no error escapes to the caller. -/
def handle_connection (setup : Except Err Unit) : HandleOutcome :=
  match setup with
  | .error _ =>
    { clientClosed := true, loggedFailure := true, raised := false, forwardingStarted := false }
  | .ok _ =>
    { clientClosed := false, loggedFailure := false, raised := false, forwardingStarted := true }

/-- Embedding of the accept loop of `TCPRelay.serve_forever`: each
accepted connection is handed to `handle_connection`; the loop keeps
accepting regardless of per-connection outcomes. -/
def serve_forever (setups : List (Except Err Unit)) : List HandleOutcome :=
  setups.map handle_connection

end TCPRelay

/-! ## Helper lemmas -/

theorem osRecv_fst_length (req : Nat) (s : List (List Nat)) :
    (osRecv req s).1.length ≤ req := by
  cases s with
  | nil => simp [osRecv]
  | cons c rest =>
    simp only [osRecv, List.length_take]
    omega

theorem recvLoop_spec (size : Nat) : ∀ msg s, msg.length ≤ size →
    ((∀ out s2, recvLoop size msg s = .ok (out, s2) → out.length = size) ∧
     (∀ e, recvLoop size msg s = .error e → e = .socketBroken)) := by
  intro msg s
  induction msg, s using recvLoop.induct size with
  | case1 msg s h s2 hr =>
    intro _
    constructor
    · intro out s3 hok
      rw [recvLoop] at hok
      simp [h, hr] at hok
    · intro e herr
      rw [recvLoop] at herr
      simp [h, hr] at herr
      exact herr.symm
  | case2 msg s h chunk s2 hr hc ih =>
    intro hle
    have hclen : chunk.length ≤ size - msg.length := by
      have h2 := osRecv_fst_length (size - msg.length) s
      rw [hr] at h2
      exact h2
    have hle2 : (msg ++ chunk).length ≤ size := by
      simp only [List.length_append]
      omega
    obtain ⟨ih1, ih2⟩ := ih hle2
    constructor
    · intro out s3 hok
      rw [recvLoop] at hok
      simp only [dif_pos h, hr, dif_neg hc] at hok
      exact ih1 out s3 hok
    · intro e herr
      rw [recvLoop] at herr
      simp only [dif_pos h, hr, dif_neg hc] at herr
      exact ih2 e herr
  | case3 msg s h =>
    intro hle
    constructor
    · intro out s3 hok
      rw [recvLoop] at hok
      simp only [dif_neg h, Except.ok.injEq, Prod.mk.injEq] at hok
      obtain ⟨h1, h2⟩ := hok
      subst h1
      omega
    · intro e herr
      rw [recvLoop] at herr
      simp [h] at herr

/-- C6: `SafeStreamSocket.recv(n)` loops accumulating reads and, whenever
it returns, returns exactly `n` bytes; every failure is the
`MuxError("socket connection broken")` raised on an empty read before `n`
bytes were collected — it never returns fewer than `n` bytes. -/
theorem recv_returns_exactly_n (size : Nat) (s : List (List Nat)) :
    (∀ out s2, SafeStreamSocket.recv size s = .ok (out, s2) → out.length = size) ∧
    (∀ e, SafeStreamSocket.recv size s = .error e → e = .socketBroken) := by
  have h := recvLoop_spec size [] s (by simp)
  exact ⟨fun out s2 => h.1 out s2, fun e => h.2 e⟩

/-- Witness for C6: a 3-byte read served by chunks of 2 and 2 bytes
returns exactly 3 bytes, with the leftover byte still pending. -/
theorem recv_returns_exactly_n_witness : ([1, 2, 3] : List Nat).length = 3 :=
  (recv_returns_exactly_n 3 [[1, 2], [3, 4]]).1 [1, 2, 3] [[4]]
    (by simp [SafeStreamSocket.recv, recvLoop, osRecv])

/-- C9: a failure of the multiplexed-stream setup for an accepted local
connection makes `handle_connection` close that connection, log the
failure and return without raising or starting forwarding; the accept
loop processes every accepted connection regardless (one outcome per
accepted connection, each depending only on that connection's own setup
outcome), so a failure never terminates the loop or touches another
connection. -/
theorem relay_setup_failure_isolated :
    (∀ e : Err, TCPRelay.handle_connection (.error e) =
      { clientClosed := true, loggedFailure := true, raised := false,
        forwardingStarted := false }) ∧
    (∀ setup, (TCPRelay.handle_connection setup).raised = false) ∧
    (∀ setups : List (Except Err Unit),
      (TCPRelay.serve_forever setups).length = setups.length) ∧
    (∀ (setups : List (Except Err Unit)) (i : Nat),
      (TCPRelay.serve_forever setups)[i]? =
        (setups[i]?).map TCPRelay.handle_connection) := by
  refine ⟨fun e => rfl, fun setup => ?_, fun setups => ?_, fun setups i => ?_⟩
  · cases setup <;> rfl
  · simp [TCPRelay.serve_forever]
  · simp [TCPRelay.serve_forever, List.getElem?_map]

/-- C3 counterexample: when both the binary and the plist Listen attempts
fail with `MuxVersionError`, `USBMux.__init__` surfaces that
`MuxVersionError` itself — no `NoUsableProtocolError` (a class that does
not exist in the code) is raised. -/
theorem usbmux_init_counterexample :
    USBMux.init (.error (.versionMismatch 0 1)) (.error (.versionMismatch 1 0)) =
      .error (.versionMismatch 1 0) := rfl

/-- C3 (amended): `USBMux.__init__` first attempts Listen with the binary
codec; a binary success negotiates version 0 with no retry; it retries
with the plist codec exactly when the binary attempt raises
`MuxVersionError` (any other error propagates untouched, independently of
what the retry would do); a successful retry negotiates version 1 with no
error surfaced; and when the retry also fails, construction fails with the
retry's own error — there is no further fallback and no distinct
`NoUsableProtocolError`. -/
theorem usbmux_version_fallback :
    (∀ pl, USBMux.init (.ok ()) pl = .ok { version := 0, protoclass := .binary }) ∧
    (∀ e pl, e.isMuxVersionError = false → USBMux.init (.error e) pl = .error e) ∧
    (∀ e, e.isMuxVersionError = true →
      USBMux.init (.error e) (.ok ()) = .ok { version := 1, protoclass := .plist }) ∧
    (∀ e e2, e.isMuxVersionError = true →
      USBMux.init (.error e) (.error e2) = .error e2) := by
  refine ⟨fun pl => rfl, fun e pl h => ?_, fun e h => ?_, fun e e2 h => ?_⟩
  · simp [USBMux.init, h]
  · simp [USBMux.init, h]
  · simp [USBMux.init, h]

/-- Witness for C3: a daemon that only understands version 1 (the binary
attempt fails with `MuxVersionError`) is handled by retrying with the
plist codec, surfacing no error. -/
theorem usbmux_version_fallback_witness :
    USBMux.init (.error (.versionMismatch 0 1)) (.ok ()) =
      .ok { version := 1, protoclass := .plist } :=
  usbmux_version_fallback.2.2.1 (.versionMismatch 0 1) rfl

theorem runExchanges_matching (nums : Nat → Nat) :
    ∀ n t, MuxConnection.runExchanges n t (MuxConnection.matchingReplies t n nums) =
      (List.range' t n, none) := by
  intro n
  induction n with
  | zero => intro t; simp [MuxConnection.runExchanges, MuxConnection.matchingReplies]
  | succ n ih =>
    intro t
    simp only [MuxConnection.matchingReplies, List.range'_succ, List.map_cons,
      MuxConnection.runExchanges, MuxConnection._exchange, MuxConnection._getreply]
    simp only [ne_eq, not_true_eq_false, ite_false, if_neg]
    have h := ih (t + 1)
    simp only [MuxConnection.matchingReplies] at h
    rw [h]

/-- C4: on one Control Connection, the tag counter starts at 1
(`MuxConnection.__init__`), so `n` successive successful exchanges send
exactly the tags 1, 2, ..., n (each one greater than the previous); and a
`Result` reply whose tag differs from the outstanding request's tag is
rejected with `MuxError("Reply tag mismatch ...")`. -/
theorem tag_monotonicity :
    (∀ n (nums : Nat → Nat),
      MuxConnection.runExchanges n MuxConnection.initPkttag
        (MuxConnection.matchingReplies MuxConnection.initPkttag n nums) =
        (List.range' 1 n, none)) ∧
    (∀ t r num rest, r ≠ t →
      (MuxConnection._exchange t (Packet.result r num :: rest)).outcome =
        .error (.tagMismatch t r)) := by
  constructor
  · intro n nums
    exact runExchanges_matching nums n MuxConnection.initPkttag
  · intro t r num rest h
    simp [MuxConnection._exchange, MuxConnection._getreply, h]

/-- Witness for C4: three exchanges against a correct daemon send tags
1, 2, 3, and a reply tagged 2 to the request tagged 1 is rejected. -/
theorem tag_monotonicity_witness :
    MuxConnection.runExchanges 3 MuxConnection.initPkttag
        (MuxConnection.matchingReplies MuxConnection.initPkttag 3 (fun _ => 0)) =
      ([1, 2, 3], none) ∧
    (MuxConnection._exchange 1 [Packet.result 2 0]).outcome =
      .error (.tagMismatch 1 2) :=
  ⟨tag_monotonicity.1 3 (fun _ => 0), tag_monotonicity.2 1 2 0 [] (by decide)⟩

/-- C5: a Connect exchange answered with status 0 sets
`self.proto.connected = True` (Streaming state) and hands the raw socket
back to the caller; a nonzero status `r` raises
`MuxError("Connect failed: error r")` carrying that status; and on a
connection already in Streaming state both `sendpacket` (for any request
its `_pack` accepts) and `getpacket` fail immediately with
`MuxError("Mux is connected, cannot issue control packets")`. -/
theorem connect_state_transition :
    (∀ t devid port rest,
      (MuxConnection.connect t false devid port (Packet.result t 0 :: rest)).2 =
        .ok { pkttag := t + 1, connected := true, socketReturned := true }) ∧
    (∀ t devid port rest r, r ≠ 0 →
      (MuxConnection.connect t false devid port (Packet.result t r :: rest)).2 =
        .error (.connectFailed r)) ∧
    (∀ req tag payload pb, BinaryProtocol._pack req payload = .ok pb →
      BinaryProtocol.sendpacket true req tag payload = .error .connectedCannotIssue) ∧
    (∀ stream, BinaryProtocol.getpacket true stream = .error .connectedCannotIssue) := by
  refine ⟨fun t devid port rest => ?_, fun t devid port rest r h => ?_,
    fun req tag payload pb h => ?_, fun stream => ?_⟩
  · simp [MuxConnection.connect, MuxConnection._exchange, MuxConnection._getreply]
  · simp [MuxConnection.connect, MuxConnection._exchange, MuxConnection._getreply, h]
  · simp only [BinaryProtocol.sendpacket, h]
    rfl
  · rfl

/-- Witness for C5: with the counter at 1, a status-5 reply to the Connect
request raises `Connect failed: error 5`, and a Listen send on a
Streaming connection is refused. -/
theorem connect_state_transition_witness :
    (MuxConnection.connect 1 false 7 8080 [Packet.result 1 5]).2 =
      .error (.connectFailed 5) ∧
    BinaryProtocol.sendpacket true BinaryProtocol.TYPE_LISTEN 1 [] =
      .error .connectedCannotIssue :=
  ⟨connect_state_transition.2.1 1 7 8080 [] 5 (by decide),
   connect_state_transition.2.2.1 BinaryProtocol.TYPE_LISTEN 1 [] [] rfl⟩

theorem testBit_hi {p : Nat} (hp : p < 65536) {i : Nat} (hi : 16 ≤ i) :
    p.testBit i = false := by
  apply Nat.testBit_lt_two_pow
  calc p < 65536 := hp
    _ = 2 ^ 16 := by norm_num
    _ ≤ 2 ^ i := Nat.pow_le_pow_right (by norm_num) hi

theorem swap16_lt {p : Nat} (hp : p < 65536) : swap16 p < 65536 := by
  have h1 : (p <<< 8) &&& 0xFF00 < 2 ^ 16 := Nat.and_lt_two_pow _ (by norm_num)
  have h2 : p >>> 8 < 2 ^ 16 := by
    rw [Nat.shiftRight_eq_div_pow]
    omega
  have h3 := Nat.or_lt_two_pow h1 h2
  simpa [swap16] using h3

theorem connect_fst (t : Nat) (connected : Bool) (devid port : Nat) (stream : List Packet) :
    (MuxConnection.connect t connected devid port stream).1 =
      dictSet (dictSet [] kDeviceID (.int devid)) kPortNumber (.int (swap16 port)) := by
  simp only [MuxConnection.connect]
  cases connected
  · simp only [Bool.false_eq_true, if_false]
    cases (MuxConnection._exchange t stream).outcome with
    | error e => rfl
    | ok v =>
      obtain ⟨ret, t2, rest⟩ := v
      by_cases hr0 : ret = 0 <;> simp [hr0]
  · rfl

theorem swap16_swap16 {p : Nat} (hp : p < 65536) : swap16 (swap16 p) = p := by
  have h65280 : ∀ j, (65280 : Nat).testBit j = (decide (8 ≤ j) && decide (j - 8 < 8)) := by
    intro j
    rw [show (65280 : Nat) = (2 ^ 8 - 1) <<< 8 from rfl, Nat.testBit_shiftLeft,
      Nat.testBit_two_pow_sub_one]
  apply Nat.eq_of_testBit_eq
  intro i
  by_cases h16 : 16 ≤ i
  · rw [testBit_hi hp h16, testBit_hi (swap16_lt (swap16_lt hp)) h16]
  · have hi : i < 16 := by omega
    interval_cases i <;>
      simp [swap16, Nat.testBit_or, Nat.testBit_and, Nat.testBit_shiftLeft,
        Nat.testBit_shiftRight, h65280, testBit_hi hp]

/-- C7: the byte swap `((port << 8) & 0xFF00) | (port >> 8)` applied
before a Connect request is self-inverse on 16-bit values — applying it
twice to any port below 65536 gives the port back — and the Connect
payload built by `MuxConnection.connect` for port 8080 (0x1F90) carries
PortNumber 0x901F (36895). -/
theorem port_swap_self_inverse :
    (∀ p, p < 65536 → swap16 (swap16 p) = p) ∧
    (∀ t connected devid stream,
      dictGet (MuxConnection.connect t connected devid 8080 stream).1 kPortNumber =
        some (.int 36895)) := by
  constructor
  · intro p hp
    exact swap16_swap16 hp
  · intro t connected devid stream
    rw [connect_fst, dictGet_dictSet]
    have hs : swap16 8080 = 36895 := by decide
    rw [hs]

/-- Witness for C7: double-swapping port 8080 yields 8080. -/
theorem port_swap_self_inverse_witness : swap16 (swap16 8080) = 8080 :=
  port_swap_self_inverse.1 8080 (by decide)

theorem removeLoop_sublist : ∀ (l : List MuxDevice) (devid k : Nat),
    (MuxConnection.removeLoop l devid k).Sublist l := by
  intro l devid k
  induction l, devid, k using MuxConnection.removeLoop.induct with
  | case1 l k h ih =>
    rw [MuxConnection.removeLoop]
    simp only [dif_pos h, if_pos rfl]
    exact ih.trans (List.eraseIdx_sublist l k)
  | case2 l devid k h hne ih =>
    rw [MuxConnection.removeLoop]
    simp only [dif_pos h, if_neg hne]
    exact ih
  | case3 l devid k h =>
    rw [MuxConnection.removeLoop]
    simp [h]

theorem removeLoop_no_match : ∀ (l : List MuxDevice) (devid k : Nat),
    (∀ d ∈ l, d.devid ≠ devid) → MuxConnection.removeLoop l devid k = l := by
  intro l devid k
  induction l, devid, k using MuxConnection.removeLoop.induct with
  | case1 l k h ih =>
    intro hall
    exact absurd rfl (hall (l.get ⟨k, h⟩) (l.get_mem k h))
  | case2 l devid k h hne ih =>
    intro hall
    rw [MuxConnection.removeLoop]
    simp only [dif_pos h, if_neg hne]
    exact ih hall
  | case3 l devid k h =>
    intro hall
    rw [MuxConnection.removeLoop]
    simp [h]

theorem runEvents_nodup : ∀ (ps : List Packet) (ds : List MuxDevice),
    (devIds ds).Nodup → MuxConnection.freshAttachesB ds ps = true →
    ∀ ds2, MuxConnection.runEvents ds ps = .ok ds2 → (devIds ds2).Nodup := by
  intro ps
  induction ps with
  | nil =>
    intro ds hnd _ ds2 hok
    simp only [MuxConnection.runEvents, Except.ok.injEq] at hok
    exact hok ▸ hnd
  | cons p tl ih =>
    intro ds hnd hfresh ds2 hok
    cases p with
    | result tag number => simp [MuxConnection.runEvents, MuxConnection._processpacket] at hok
    | other tag => simp [MuxConnection.runEvents, MuxConnection._processpacket] at hok
    | deviceAdd tag devid pid serial loc =>
      simp only [MuxConnection.freshAttachesB, Bool.and_eq_true, Bool.not_eq_true',
        decide_eq_false_iff_not] at hfresh
      simp only [MuxConnection.runEvents, MuxConnection._processpacket] at hok
      refine ih (ds ++ [⟨devid, pid, serial, loc⟩]) ?_ hfresh.2 ds2 hok
      simp only [devIds, List.map_append, List.map_cons, List.map_nil]
      rw [List.nodup_append]
      refine ⟨hnd, List.nodup_singleton _, ?_⟩
      intro a ha hb
      simp only [List.mem_singleton] at hb
      subst hb
      exact hfresh.1 ha
    | deviceRemove tag devid =>
      simp only [MuxConnection.freshAttachesB] at hfresh
      simp only [MuxConnection.runEvents, MuxConnection._processpacket] at hok
      refine ih _ ?_ hfresh ds2 hok
      exact List.Nodup.sublist ((removeLoop_sublist ds devid 0).map _) hnd

/-- C1 counterexample: the daemon-event processing appends on every
attach without checking for a duplicate id, so the interleaving
"attach id 5, attach id 5" leaves two registry entries with device_id 5 —
the claimed invariant fails for this interleaving. -/
theorem device_registry_counterexample :
    MuxConnection.runEvents []
        [Packet.deviceAdd 0 5 0 [] 0, Packet.deviceAdd 0 5 0 [] 0] =
      .ok [⟨5, 0, [], 0⟩, ⟨5, 0, [], 0⟩] ∧
    ¬ (devIds [⟨5, 0, [], 0⟩, ⟨5, 0, [], 0⟩]).Nodup :=
  ⟨rfl, by decide⟩

/-- C1 (amended): starting from the empty registry of
`MuxConnection.__init__`, any interleaving of attach/detach events in
which every attach carries a device_id not currently in the registry (the
daemon reuses ids only after removal) keeps the registry free of
duplicate device_ids; and processing a detach whose device_id matches no
registry entry leaves the registry unchanged (a no-op).  Without the
freshness assumption the duplicate-free invariant fails (see the
counterexample). -/
theorem device_registry_consistency :
    (∀ ps ds2, MuxConnection.freshAttachesB [] ps = true →
      MuxConnection.runEvents [] ps = .ok ds2 → (devIds ds2).Nodup) ∧
    (∀ ds tag devid, devid ∉ devIds ds →
      MuxConnection._processpacket ds (Packet.deviceRemove tag devid) = .ok ds) := by
  constructor
  · intro ps ds2 hfresh hok
    exact runEvents_nodup ps [] (by simp [devIds]) hfresh ds2 hok
  · intro ds tag devid hmem
    simp only [MuxConnection._processpacket, Except.ok.injEq]
    apply removeLoop_no_match
    intro d hd heq
    exact hmem (heq ▸ List.mem_map_of_mem (fun x => x.devid) hd)

/-- Witness for C1: attach 1, attach 2, detach 1 yields the
duplicate-free registry [device 2], and a detach for the untracked id 9
leaves a registry unchanged. -/
theorem device_registry_consistency_witness :
    (devIds [⟨2, 0, [], 0⟩]).Nodup ∧
    MuxConnection._processpacket [⟨1, 0, [], 0⟩, ⟨2, 0, [], 0⟩]
        (Packet.deviceRemove 0 9) = .ok [⟨1, 0, [], 0⟩, ⟨2, 0, [], 0⟩] :=
  ⟨device_registry_consistency.1
      [Packet.deviceAdd 0 1 0 [] 0, Packet.deviceAdd 0 2 0 [] 0, Packet.deviceRemove 0 1]
      [⟨2, 0, [], 0⟩]
      (by simp [MuxConnection.freshAttachesB, devIds, MuxConnection.removeLoop])
      (by simp [MuxConnection.runEvents, MuxConnection._processpacket,
        MuxConnection.removeLoop, List.eraseIdx]),
   device_registry_consistency.2 [⟨1, 0, [], 0⟩, ⟨2, 0, [], 0⟩] 0 9 (by decide)⟩

theorem takeWhile_append_replicate_zero (s : List Nat) (h : ∀ b ∈ s, b ≠ 0) (n : Nat) :
    (s ++ List.replicate n 0).takeWhile (fun b => !decide (b = 0)) = s := by
  induction s with
  | nil =>
    cases n with
    | zero => rfl
    | succ m => simp [List.replicate_succ, List.takeWhile_cons]
  | cons a tl ih =>
    have ha : a ≠ 0 := h a (List.mem_cons_self _ _)
    simp [List.takeWhile_cons, ha, ih (fun b hb => h b (List.mem_cons_of_mem _ hb))]

/-- Byte layout of a binary DeviceAttach payload as the spec states it:
a 32-bit device_id, a 16-bit product_id, a 256-byte NUL-padded serial
field, 2 padding bytes, and a 32-bit location_id (all little-endian on
this platform).  Written from the spec's words, to be decoded by the
source-embedded `BinaryProtocol._unpack`. -/
def deviceAttachPayload (devid pid : Nat) (serial : List Nat) (loc : Nat) : List Nat :=
  u32le devid ++
    (u16le pid ++
      ((serial ++ List.replicate (256 - serial.length) 0) ++ ([0, 0] ++ u32le loc)))

/-- C8: decoding a binary DeviceAttach payload laid out as
`u32 device_id, u16 product_id, char[256] serial (NUL-padded), u16
padding, u32 location_id` yields exactly the device_id, product_id, the
serial bytes up to the first NUL, and the location_id. -/
theorem binary_deviceattach_layout (devid pid loc : Nat) (serial : List Nat)
    (h1 : devid < 4294967296) (h2 : pid < 65536) (h3 : loc < 4294967296)
    (h4 : serial.length ≤ 256) (h5 : ∀ b ∈ serial, b ≠ 0) :
    BinaryProtocol._unpack BinaryProtocol.TYPE_DEVICE_ADD
        (deviceAttachPayload devid pid serial loc) =
      .ok (.deviceAdd devid pid serial loc) := by
  have hSlen : (serial ++ List.replicate (256 - serial.length) 0).length = 256 := by
    simp only [List.length_append, List.length_replicate]
    omega
  have hlen : (deviceAttachPayload devid pid serial loc).length = 268 := by
    simp only [deviceAttachPayload, List.length_append, List.length_replicate,
      u32le_length, u16le_length, List.length_cons, List.length_nil]
    omega
  have e1 : (deviceAttachPayload devid pid serial loc).take 4 = u32le devid :=
    List.take_left' (u32le_length devid)
  have d4 : (deviceAttachPayload devid pid serial loc).drop 4 =
      u16le pid ++ ((serial ++ List.replicate (256 - serial.length) 0) ++
        ([0, 0] ++ u32le loc)) :=
    List.drop_left' (u32le_length devid)
  have e2 : ((deviceAttachPayload devid pid serial loc).drop 4).take 2 = u16le pid := by
    rw [d4]
    exact List.take_left' (u16le_length pid)
  have d6 : (deviceAttachPayload devid pid serial loc).drop 6 =
      (serial ++ List.replicate (256 - serial.length) 0) ++ ([0, 0] ++ u32le loc) := by
    rw [show (6 : Nat) = 4 + 2 from rfl, ← List.drop_drop, d4]
    exact List.drop_left' (u16le_length pid)
  have e3 : ((deviceAttachPayload devid pid serial loc).drop 6).take 256 =
      serial ++ List.replicate (256 - serial.length) 0 := by
    rw [d6]
    exact List.take_left' hSlen
  have d262 : (deviceAttachPayload devid pid serial loc).drop 262 =
      [0, 0] ++ u32le loc := by
    rw [show (262 : Nat) = 6 + 256 from rfl, ← List.drop_drop, d6]
    exact List.drop_left' hSlen
  have d264 : (deviceAttachPayload devid pid serial loc).drop 264 = u32le loc := by
    rw [show (264 : Nat) = 262 + 2 from rfl, ← List.drop_drop, d262]
    rfl
  have e4 : ((deviceAttachPayload devid pid serial loc).drop 264).take 4 = u32le loc := by
    rw [d264, show (4 : Nat) = (u32le loc).length from rfl, List.take_length]
  simp only [BinaryProtocol._unpack, BinaryProtocol.TYPE_RESULT,
    BinaryProtocol.TYPE_DEVICE_ADD, BinaryProtocol.TYPE_DEVICE_REMOVE, hlen,
    e1, e2, e3, e4]
  norm_num
  rw [readU32_u32le devid h1, readU16_u16le pid h2, readU32_u32le loc h3,
    takeWhile_append_replicate_zero serial h5]
  exact ⟨rfl, rfl, rfl, rfl⟩

/-- Witness for C8: a payload built for device 1, product 2, serial "A"
(byte 65), location 3 decodes to exactly those fields. -/
theorem binary_deviceattach_layout_witness :
    BinaryProtocol._unpack BinaryProtocol.TYPE_DEVICE_ADD
        (deviceAttachPayload 1 2 [65] 3) = .ok (.deviceAdd 1 2 [65] 3) :=
  binary_deviceattach_layout 1 2 3 [65] (by decide) (by decide) (by decide)
    (by decide) (by decide)

theorem bind_ok_eq {α β : Type} (a : α) (f : α → Except Err β) :
    (Except.ok a >>= f : Except Err β) = f a := rfl

theorem framePacket_ok (version req tag : Nat) (pb : List Nat)
    (hv : version < 4294967296) (hq : req < 4294967296) (ht : tag < 4294967296)
    (hlen : 16 + pb.length < 4294967296) :
    framePacket version req tag pb =
      .ok (u32le (16 + pb.length) ++
        (u32le version ++ (u32le req ++ (u32le tag ++ pb)))) := by
  simp only [framePacket, packU32, if_pos hv, if_pos hq, if_pos ht, if_pos hlen,
    bind_ok_eq]
  simp [List.append_assoc]

theorem getpacketRaw_frame (version req tag : Nat) (pb : List Nat)
    (hv : version < 4294967296) (hq : req < 4294967296) (ht : tag < 4294967296)
    (hlen : 16 + pb.length < 4294967296) :
    getpacketRaw version false
      (u32le (16 + pb.length) ++ (u32le version ++ (u32le req ++ (u32le tag ++ pb)))) =
      .ok (req, tag, pb, []) := by
  have hL : readU32 (u32le (16 + pb.length)) = 16 + pb.length := readU32_u32le _ hlen
  have hrest : (u32le (16 + pb.length) ++
      (u32le version ++ (u32le req ++ (u32le tag ++ pb)))).drop 4 =
      u32le version ++ (u32le req ++ (u32le tag ++ pb)) := List.drop_left' (u32le_length _)
  have htake : (u32le (16 + pb.length) ++
      (u32le version ++ (u32le req ++ (u32le tag ++ pb)))).take 4 =
      u32le (16 + pb.length) := List.take_left' (u32le_length _)
  have hrestlen : (u32le version ++ (u32le req ++ (u32le tag ++ pb))).length =
      12 + pb.length := by
    simp [List.length_append, u32le_length]
    omega
  have hstreamlen : (u32le (16 + pb.length) ++
      (u32le version ++ (u32le req ++ (u32le tag ++ pb)))).length = 16 + pb.length := by
    simp [List.length_append, u32le_length]
    omega
  have hbody : (u32le version ++ (u32le req ++ (u32le tag ++ pb))).take
      (16 + pb.length - 4) = u32le version ++ (u32le req ++ (u32le tag ++ pb)) := by
    rw [show 16 + pb.length - 4 = (u32le version ++ (u32le req ++ (u32le tag ++ pb))).length
      by rw [hrestlen]; omega]
    exact List.take_length _
  have hs2 : (u32le version ++ (u32le req ++ (u32le tag ++ pb))).drop
      (16 + pb.length - 4) = [] := by
    apply List.drop_eq_nil_of_le
    omega
  simp only [getpacketRaw, Bool.false_eq_true, if_false, recvExact, hstreamlen]
  rw [if_pos (by omega : (4 : Nat) ≤ 16 + pb.length)]
  simp only [bind_ok_eq, htake, hrest, hL]
  rw [if_pos (by rw [hrestlen]; omega : 16 + pb.length - 4 ≤
    (u32le version ++ (u32le req ++ (u32le tag ++ pb))).length)]
  simp only [bind_ok_eq, hbody, hs2]
  rw [if_neg (by rw [hrestlen]; omega : ¬ (u32le version ++
    (u32le req ++ (u32le tag ++ pb))).length < 12)]
  have e1 : (u32le version ++ (u32le req ++ (u32le tag ++ pb))).take 4 = u32le version :=
    List.take_left' (u32le_length _)
  have d4 : (u32le version ++ (u32le req ++ (u32le tag ++ pb))).drop 4 =
      u32le req ++ (u32le tag ++ pb) := List.drop_left' (u32le_length _)
  have e2 : ((u32le version ++ (u32le req ++ (u32le tag ++ pb))).drop 4).take 4 =
      u32le req := by
    rw [d4]
    exact List.take_left' (u32le_length _)
  have d8 : (u32le version ++ (u32le req ++ (u32le tag ++ pb))).drop 8 =
      u32le tag ++ pb := by
    rw [show (8 : Nat) = 4 + 4 from rfl, ← List.drop_drop, d4]
    exact List.drop_left' (u32le_length _)
  have e3 : ((u32le version ++ (u32le req ++ (u32le tag ++ pb))).drop 8).take 4 =
      u32le tag := by
    rw [d8]
    exact List.take_left' (u32le_length _)
  have d12 : (u32le version ++ (u32le req ++ (u32le tag ++ pb))).drop 12 = pb := by
    rw [show (12 : Nat) = 8 + 4 from rfl, ← List.drop_drop, d8]
    exact List.drop_left' (u32le_length _)
  rw [e1, e2, e3, d12, readU32_u32le _ hv, readU32_u32le _ hq, readU32_u32le _ ht]
  simp

/-- C2 counterexample: the binary codec's decoder accepts only the
response kinds Result/DeviceAttach/DeviceRemove, while its encoder
accepts only the request kinds Connect/Listen, so no encodable tuple
round-trips; concretely, a Listen request (kind 3, tag 1) encodes to a
valid frame whose decoding raises
`MuxError("Invalid incoming request type 3")`. -/
theorem codec_roundtrip_counterexample :
    BinaryProtocol.sendpacket false BinaryProtocol.TYPE_LISTEN 1 [] =
      .ok [16, 0, 0, 0, 0, 0, 0, 0, 3, 0, 0, 0, 1, 0, 0, 0] ∧
    BinaryProtocol.getpacket false [16, 0, 0, 0, 0, 0, 0, 0, 3, 0, 0, 0, 1, 0, 0, 0] =
      .error (.invalidIncoming 3) := ⟨rfl, rfl⟩

/-- C2 (amended): the encode→decode round trip holds for the plist codec
(version 1) up to the codec's in-place payload mutation: for a
string-typed kind, decoding the encoded frame yields the original kind,
the original tag, and the payload dict exactly as the encoder left it —
the caller's entries are preserved at every key other than the three
injected metadata keys, and MessageType holds the kind.  For the binary
codec (version 0) no round trip holds at all, since every kind its
encoder accepts is rejected by its decoder (see the counterexample). -/
theorem plist_roundtrip (req : List Nat) (tag : Nat) (payload mutated : PDict)
    (hm : mutated =
      dictSet (dictSet (dictSet payload kClientVersionString (.str vClientVersion))
        kMessageType (.str req)) kProgName (.str vProgName))
    (ht : tag < 4294967296)
    (hlen : 16 + (plistlibDumps mutated).length < 4294967296) :
    PlistProtocol.sendpacket false (.str req) tag payload =
      (.ok (u32le (16 + (plistlibDumps mutated).length) ++
        (u32le 1 ++ (u32le 8 ++ (u32le tag ++ plistlibDumps mutated)))), mutated) ∧
    PlistProtocol.getpacket false
        (u32le (16 + (plistlibDumps mutated).length) ++
          (u32le 1 ++ (u32le 8 ++ (u32le tag ++ plistlibDumps mutated)))) =
      .ok (.str req, tag, mutated, []) ∧
    dictGet mutated kMessageType = some (.str req) ∧
    (∀ k, k ≠ kClientVersionString → k ≠ kMessageType → k ≠ kProgName →
      dictGet mutated k = dictGet payload k) := by
  have hMT : dictGet mutated kMessageType = some (.str req) := by
    rw [hm, dictGet_dictSet_ne _ _ _ _ (by decide), dictGet_dictSet]
  refine ⟨?_, ?_, hMT, ?_⟩
  · simp only [PlistProtocol.sendpacket, PlistProtocol.reqToStr, PlistProtocol.VERSION,
      PlistProtocol.TYPE_PLIST, ← hm]
    rw [framePacket_ok 1 8 tag (plistlibDumps mutated) (by norm_num) (by norm_num) ht hlen]
    rfl
  · have hraw := getpacketRaw_frame 1 8 tag (plistlibDumps mutated)
      (by norm_num) (by norm_num) ht hlen
    simp only [PlistProtocol.getpacket, PlistProtocol.VERSION, hraw, bind_ok_eq,
      PlistProtocol.TYPE_PLIST, plistlibLoads_dumps, hMT]
    simp
  · intro k hk1 hk2 hk3
    rw [hm, dictGet_dictSet_ne _ _ _ _ (Ne.symm hk3), dictGet_dictSet_ne _ _ _ _
      (Ne.symm hk2), dictGet_dictSet_ne _ _ _ _ (Ne.symm hk1)]

/-- Witness for C2: encoding a Connect message with tag 1 and an empty
payload through the plist codec and decoding it returns MessageType
"Connect". -/
theorem plist_roundtrip_witness :
    dictGet (dictSet (dictSet (dictSet [] kClientVersionString (.str vClientVersion))
        kMessageType (.str sConnect)) kProgName (.str vProgName)) kMessageType =
      some (.str sConnect) :=
  (plist_roundtrip sConnect 1 [] _ rfl (by decide) (by decide)).2.2.1

/-- Embedding of two successive `PlistProtocol.sendpacket` calls that both
omit the `payload` argument: python evaluates the `payload={}` default
once at function-definition time, so both calls receive and mutate the
same dict object.  The first component is that object's state when the
second call begins (the first call's mutated dict); the second component
is its state after the second call. -/
def PlistProtocol.twoDefaultSends (req1 req2 : PlistProtocol.ReqArg) (tag1 tag2 : Nat) :
    PDict × PDict :=
  let firstCall := PlistProtocol.sendpacket false req1 tag1 []
  let secondCall := PlistProtocol.sendpacket false req2 tag2 firstCall.2
  (firstCall.2, secondCall.2)

/-- C10: `PlistProtocol.sendpacket` mutates the caller-supplied payload
dict in place, inserting ClientVersionString, MessageType and ProgName
(in that order); and because the `payload={}` default is one shared
mutable dict, the dict a second default-payload send operates on is the
first send's mutated dict, which still carries all three keys injected by
the first send. -/
theorem plist_default_payload_shared :
    (∀ connected req tag payload reqs,
      PlistProtocol.reqToStr req = .ok reqs →
      (PlistProtocol.sendpacket connected req tag payload).2 =
        dictSet (dictSet (dictSet payload kClientVersionString (.str vClientVersion))
          kMessageType (.str reqs)) kProgName (.str vProgName)) ∧
    (∀ req1 req2 tag1 tag2 reqs1,
      PlistProtocol.reqToStr req1 = .ok reqs1 →
      dictGet (PlistProtocol.twoDefaultSends req1 req2 tag1 tag2).1 kClientVersionString =
          some (.str vClientVersion) ∧
        dictGet (PlistProtocol.twoDefaultSends req1 req2 tag1 tag2).1 kMessageType =
          some (.str reqs1) ∧
        dictGet (PlistProtocol.twoDefaultSends req1 req2 tag1 tag2).1 kProgName =
          some (.str vProgName)) := by
  have hmut : ∀ connected req tag payload reqs,
      PlistProtocol.reqToStr req = .ok reqs →
      (PlistProtocol.sendpacket connected req tag payload).2 =
        dictSet (dictSet (dictSet payload kClientVersionString (.str vClientVersion))
          kMessageType (.str reqs)) kProgName (.str vProgName) := by
    intro connected req tag payload reqs hreq
    simp [PlistProtocol.sendpacket, hreq]
  refine ⟨hmut, fun req1 req2 tag1 tag2 reqs1 hreq1 => ?_⟩
  have h1 : (PlistProtocol.twoDefaultSends req1 req2 tag1 tag2).1 =
      dictSet (dictSet (dictSet [] kClientVersionString (.str vClientVersion))
        kMessageType (.str reqs1)) kProgName (.str vProgName) := by
    simp only [PlistProtocol.twoDefaultSends]
    exact hmut false req1 tag1 [] reqs1 hreq1
  rw [h1]
  refine ⟨?_, ?_, ?_⟩
  · rw [dictGet_dictSet_ne _ _ _ _ (by decide), dictGet_dictSet_ne _ _ _ _ (by decide),
      dictGet_dictSet]
  · rw [dictGet_dictSet_ne _ _ _ _ (by decide), dictGet_dictSet]
  · rw [dictGet_dictSet]

/-- Witness for C10: after a first default-payload Connect send (int
request 2), the dict the second default-payload send starts from already
holds MessageType "Connect". -/
theorem plist_default_payload_shared_witness :
    dictGet (PlistProtocol.twoDefaultSends (.int 2) (.int 3) 1 2).1 kMessageType =
      some (.str sConnect) :=
  ((plist_default_payload_shared.2 (.int 2) (.int 3) 1 2 sConnect rfl).2).1
